import Mathlib

/-!
Verification of the media-timeline assembly pipeline in `src/main.py`
(Video Combiner API).

The Python program is shallowly embedded: durations are exact rationals,
the per-stage outcomes of I/O operations (HTTP downloads, file writes,
media-engine calls) are supplied as boolean/inductive oracles, and each
endpoint is a pure function from a request and an oracle to a trace
recording the response, which side effects were attempted, and which
files remain afterwards.
-/

/-! ## Duration Budgeter (process_videos, trimming step, main.py lines 126-148)

A clip is represented by its duration (a rational).  A trimmed clip is the
pair (start, stop) handed to `clip.subclip(start, stop)`; the code always
uses start 0.  The pass-through branch (total duration within budget)
leaves the clips untouched, which we represent as the segment (0, d).
-/

/-- Kept duration of a trimmed segment (stop minus start). -/
def keptLen (p : ℚ × ℚ) : ℚ := p.2 - p.1

/-- The trimming loop of process_videos: iterate clips in order with
`remaining_duration`; stop as soon as `remaining <= 0`; otherwise keep
`subclip(0, min(clip.duration, remaining))` and decrement `remaining`. -/
def trimLoop : List ℚ → ℚ → List (ℚ × ℚ)
  | [], _ => []
  | d :: ds, remaining =>
    if remaining ≤ 0 then []
    else ((0 : ℚ), min d remaining) :: trimLoop ds (remaining - min d remaining)

/-- The whole trimming step: the loop runs only when
`total_duration > max_duration`; otherwise the clips are kept unchanged. -/
def trimClips (clips : List ℚ) (maxDuration : ℚ) : List (ℚ × ℚ) :=
  if maxDuration < clips.sum then trimLoop clips maxDuration
  else clips.map (fun d => ((0 : ℚ), d))

/-! ## Audio Track Synthesizer (process_videos, main.py lines 150-179)

An audio clip is modelled by the duration of its underlying source file,
the (start, stop) window selected by `subclip`, and an amplitude factor
accumulated by `volumex`.
-/

/-- A moviepy audio clip: source duration, subclip window, volume factor. -/
structure AClip where
  srcDur : ℚ
  start : ℚ
  stop : ℚ
  vol : ℚ
deriving DecidableEq

/-- moviepy clip duration: length of the selected window. -/
def AClip.duration (c : AClip) : ℚ := c.stop - c.start

/-- moviepy subclip(a, b): select the window [a, b) of the current clip. -/
def AClip.subclip (c : AClip) (a b : ℚ) : AClip :=
  { c with start := c.start + a, stop := c.start + b }

/-- moviepy volumex(f): scale the amplitude by f. -/
def AClip.volumex (c : AClip) (f : ℚ) : AClip :=
  { c with vol := c.vol * f }

/-- AudioFileClip(path): a fresh clip spanning the whole source at volume 1. -/
def AudioFileClip (d : ℚ) : AClip := ⟨d, 0, d, 1⟩

/-- Background-audio preparation (main.py lines 152-160).  When the
background is shorter than the video the source executes
`background_audio.fx.audio_loop(duration=...)`; `Clip.fx` is a method of
moviepy clips, not a namespace, so this attribute lookup raises
AttributeError at runtime before any looping happens.  That raise is
embedded as the error branch.  Otherwise the clip is trimmed with
`subclip(0, final_clip.duration)`. -/
def makeBackgroundAudio (audioDur videoDur : ℚ) : Except String AClip :=
  let bg := AudioFileClip audioDur
  if bg.duration < videoDur then
    Except.error ("AttributeError")
  else
    Except.ok (bg.subclip 0 videoDur)

/-- Final audio synthesis (main.py lines 150-179).  `narrDur = some d`
models a narration path that is provided and exists on disk.  The
narration is trimmed only when longer than the video, the background is
attenuated with `volumex(0.3)`, and both are mixed with
`CompositeAudioClip([background_audio, narration_audio])`.  The float
literal 0.3 is represented by the exact rational 3/10. -/
def makeFinalAudio (audioDur : ℚ) (narrDur : Option ℚ) (videoDur : ℚ) :
    Except String (List AClip) :=
  match makeBackgroundAudio audioDur videoDur with
  | Except.error e => Except.error e
  | Except.ok bg =>
    match narrDur with
    | some nd =>
      let narr := AudioFileClip nd
      let narr := if narr.duration > videoDur then narr.subclip 0 videoDur else narr
      Except.ok [bg.volumex (3 / 10), narr]
    | none => Except.ok [bg]

/-! ## Scratch Workspace lifecycle (process_videos, main.py lines 112-205)

`process_videos` creates a scratch directory with `tempfile.mkdtemp`,
downloads every video into it, and in a `finally` block removes each file
registered in `downloaded_files` (failures logged) and then
`shutil.rmtree`s the directory (failure logged).  `downloaded_files` is
only extended after the whole list comprehension of downloads succeeds, so
on a mid-list fetch failure the earlier files sit in the directory
unregistered and are removed by `rmtree` alone.
-/

/-- Outcome of one `download_file` call: success returning the written
filename, failure before anything was written, or failure after a partial
file was written into the directory. -/
inductive FetchRes where
  | success (name : String)
  | failedNoFile
  | failedPartial (name : String)

/-- Files written into the scratch directory by the download list
comprehension, and whether every download succeeded.  A failing download
raises, so the remaining links are never attempted. -/
def fetchFiles : List FetchRes → List String × Bool
  | [] => ([], true)
  | FetchRes.success n :: rs =>
    ((n :: (fetchFiles rs).1), (fetchFiles rs).2)
  | FetchRes.failedNoFile :: _ => ([], false)
  | FetchRes.failedPartial n :: _ => ([n], false)

/-- State of the per-job scratch directory after the pipeline exits. -/
structure ScratchState where
  dirExists : Bool
  files : List String
deriving DecidableEq

/-- Oracle for one run of `process_videos`: the outcome of each download,
whether the remaining stages (load, trim, concatenate, audio, export)
succeed, and whether the cleanup operations themselves fail. -/
structure PipelineEnv where
  fetches : List FetchRes
  assembleOk : Bool
  removeFileFails : String → Bool
  rmtreeFails : Bool

/-- `process_videos` viewed through its scratch-directory side effects:
result of the try block, and the scratch state after the finally block.
`rmtree` removal is modelled as all-or-nothing. -/
def processVideosScratch (env : PipelineEnv) : Except String Unit × ScratchState :=
  let written := (fetchFiles env.fetches).1
  let fetchOk := (fetchFiles env.fetches).2
  let result : Except String Unit :=
    if fetchOk then
      (if env.assembleOk then Except.ok () else Except.error ("Error processing videos"))
    else Except.error ("Error processing videos")
  let registered := if fetchOk then written else []
  let afterLoop := written.filter (fun n => !(registered.contains n && !(env.removeFileFails n)))
  let finalState : ScratchState :=
    if env.rmtreeFails then ⟨true, afterLoop⟩ else ⟨false, []⟩
  (result, finalState)

/-! ## Endpoint models (main.py lines 34-76, 211-241, 243-309)

Each endpoint is a function from the request and a `RunEnv` oracle to an
`EndpointTrace`.  Exception detail strings carry the static part of the
Python format strings; the interpolated exception text is omitted.
-/

/-- Oracle for one job: whether the endpoint-level background-audio
download succeeds, whether every `download_file` call inside
`process_videos` succeeds, whether the remaining pipeline stages succeed,
whether a partial output file is left behind on a pipeline failure, and
whether `os.remove(output_path)` in the except handler fails. -/
structure RunEnv where
  audioFetchOk : Bool
  videoFetchesOk : Bool
  restOk : Bool
  partialOutputWritten : Bool
  outputRemoveFails : Bool

/-- `download_file` (main.py lines 78-100): any failure is re-raised as
HTTPException with status 500. -/
def downloadFileRes (ok : Bool) : Except (Nat × String) Unit :=
  if ok then Except.ok () else Except.error (500, ("Error downloading file"))

/-- Result of `process_videos`: every caught exception (including the 500
raised by `download_file`) is re-raised as HTTPException 500. -/
def processVideosRes (e : RunEnv) : Except (Nat × String) Unit :=
  match downloadFileRes e.videoFetchesOk with
  | Except.error _ => Except.error (500, ("Error processing videos"))
  | Except.ok _ =>
    if e.restOk then Except.ok () else Except.error (500, ("Error processing videos"))

/-- Whether the output file exists right after `process_videos` returns or
raises: the export either completed it or may have left a partial file. -/
def outputAfterPipeline (e : RunEnv) : Bool :=
  match processVideosRes e with
  | Except.ok _ => true
  | Except.error _ => e.partialOutputWritten

/-- The value passed as the `audio_path` argument of `process_videos`:
either a local file path inside the temp directory or a remote URL. -/
inductive AudioArg where
  | localPath (p : String)
  | url (u : String)
deriving DecidableEq

/-- Whether an Except value is a success. -/
def exceptOk {ε α : Type} : Except ε α → Bool
  | Except.ok _ => true
  | Except.error _ => false

/-- Observable trace of one endpoint invocation. -/
structure EndpointTrace where
  response : Except (Nat × String) String
  audioFetchTried : Bool
  pipelineRan : Bool
  audioArgToPipeline : Option AudioArg
  outputExistsAfter : Bool
  pipelineResult : Option (Except (Nat × String) Unit)

/-- A validated VideoRequest (main.py lines 27-30). -/
structure VReq where
  videoLinks : List String
  audioLink : String
  maxDuration : Int

/-- A raw JSON body before pydantic validation: `none` means the field is
missing. -/
structure RawRequest where
  videoLinks : Option (List String)
  audioLink : Option String
  maxDuration : Option Int

/-- Pydantic validation of VideoRequest: both `video_links` and
`audio_link` are required fields, `max_duration` defaults to 600, and no
minimum length is imposed on `video_links` (the empty list passes). -/
def validateVideoRequest (r : RawRequest) : Except (Nat × String) VReq :=
  match r.videoLinks, r.audioLink with
  | some vs, some a => Except.ok ⟨vs, a, r.maxDuration.getD 600⟩
  | _, _ => Except.error (422, ("validation error"))

/-- The synchronous endpoint `/combine-videos` (main.py lines 34-76):
download the background audio to a temp path (failure: 400), run
`process_videos` with that local path, serve the file on success, and on
failure remove the output file if it exists (removal failure swallowed)
and raise 500. -/
def combineVideosRun (req : VReq) (e : RunEnv) : EndpointTrace :=
  if e.audioFetchOk then
    match processVideosRes e with
    | Except.ok _ =>
      ⟨Except.ok ("combined_video.mp4"), true, true,
        some (AudioArg.localPath ("audio_temp")), true, some (Except.ok ())⟩
    | Except.error err =>
      ⟨Except.error (500, err.2), true, true,
        some (AudioArg.localPath ("audio_temp")),
        outputAfterPipeline e && e.outputRemoveFails, some (Except.error err)⟩
  else
    ⟨Except.error (400, ("Failed to download audio")), true, false, none, false, none⟩

/-- The detached endpoint `/combine-videos-async` (main.py lines 211-227):
schedules `process_videos(request.video_links, request.audio_link,
output_path, request.max_duration)` as a background task and returns the
job id immediately.  The audio link is passed through as-is — it is never
downloaded — and no handler removes the output file when the background
task fails. -/
def combineVideosAsyncRun (req : VReq) (e : RunEnv) : EndpointTrace :=
  ⟨Except.ok ("job accepted"), false, true, some (AudioArg.url req.audioLink),
    outputAfterPipeline e, some (processVideosRes e)⟩

/-- The narration endpoint `/combine-with-narration` (main.py lines
243-309).  `links` is the already comma-split, stripped, nonempty-filtered
list of video links.  An empty list is rejected with 400 before any
download; then the background audio is downloaded (failure: 400), the
uploaded narration is saved (failure: 400), `process_videos` runs with
both local paths, and on failure the output file is removed as in the
synchronous endpoint. -/
def combineWithNarrationRun (links : List String) (narrSaveOk : Bool) (e : RunEnv) :
    EndpointTrace :=
  if links.isEmpty then
    ⟨Except.error (400, ("No video links provided")), false, false, none, false, none⟩
  else if e.audioFetchOk then
    if narrSaveOk then
      match processVideosRes e with
      | Except.ok _ =>
        ⟨Except.ok ("combined_video.mp4"), true, true,
          some (AudioArg.localPath ("audio_temp")), true, some (Except.ok ())⟩
      | Except.error err =>
        ⟨Except.error (500, err.2), true, true,
          some (AudioArg.localPath ("audio_temp")),
          outputAfterPipeline e && e.outputRemoveFails, some (Except.error err)⟩
    else
      ⟨Except.error (400, ("Failed to process narration file")), true, false, none,
        false, none⟩
  else
    ⟨Except.error (400, ("Failed to download background audio")), true, false, none,
      false, none⟩

/-- `/combine-videos` including pydantic validation of the body. -/
def combineVideosEndpoint (r : RawRequest) (e : RunEnv) : EndpointTrace :=
  match validateVideoRequest r with
  | Except.error err => ⟨Except.error err, false, false, none, false, none⟩
  | Except.ok req => combineVideosRun req e

/-- `/combine-videos-async` including pydantic validation of the body. -/
def combineVideosAsyncEndpoint (r : RawRequest) (e : RunEnv) : EndpointTrace :=
  match validateVideoRequest r with
  | Except.error err => ⟨Except.error err, false, false, none, false, none⟩
  | Except.ok req => combineVideosAsyncRun req e

/-! ## Asset Fetcher filename derivation (download_file, main.py lines 84-87) -/

/-- Python str.split(sep) for a single character separator: always returns
at least one (possibly empty) piece. -/
def splitOnChar (c : Char) : List Char → List (List Char)
  | [] => [[]]
  | x :: xs =>
    match splitOnChar c xs with
    | [] => [[]]
    | y :: ys => if x = c then [] :: y :: ys else (x :: y) :: ys

/-- Index of the last dot of a list of characters, if any. -/
def lastDotIdx : List Char → Option Nat
  | [] => none
  | c :: cs =>
    match lastDotIdx cs with
    | some j => some (j + 1)
    | none => if c = ('.') then some 0 else none

/-- The extension component of Python os.path.splitext applied to a single
path segment: everything from the last dot on, except that a segment whose
characters before the last dot are all dots (hidden files like .bashrc)
has no extension. -/
def splitextExt (cs : List Char) : List Char :=
  match lastDotIdx cs with
  | none => []
  | some i => if (cs.take i).any (fun c => c ≠ ('.')) then cs.drop i else []

/-- The last '/'-separated component of the URL string
(`url_str.split('/')[-1]`). -/
def lastComponent (cs : List Char) : List Char :=
  (splitOnChar ('/') cs).getLastD []

/-- The local filename chosen by `download_file`:
`os.path.join(directory, f"{uuid.uuid4()}{extension}")` where the
extension is `os.path.splitext(url_path)[1]` when the last '/'-separated
component of the URL contains a dot and ".mp4" otherwise.  The fresh
uuid4 value is passed in as `uuid`; `directory` is nonempty and does not
end in '/', so the join inserts a single '/'. -/
def downloadFilename (dir uuid url : List Char) : List Char :=
  let urlPath : List Char := if url.contains ('/') then lastComponent url else []
  let ext : List Char :=
    if urlPath.contains ('.') then splitextExt urlPath else (".mp4").data
  dir ++ ('/') :: (uuid ++ ext)

/-! ## Download lookup endpoint (download_video, main.py lines 229-241) -/

/-- Python os.path.join for two components: a second component starting
with '/' replaces the first entirely; otherwise they are joined with '/'
(the output directory is nonempty and does not end in '/'). -/
def pathJoin (a b : String) : String :=
  if b.data.head? = some ('/') then b else a ++ ("/") ++ b

/-- The lookup endpoint: join the output directory with the job id plus
".mp4" verbatim — no sanitization or containment check — serve the file when it
exists, otherwise fail with 404. -/
def downloadVideoRun (fileExists : String → Bool) (outputDir jobId : String) :
    Except (Nat × String) String :=
  if fileExists (pathJoin outputDir (jobId ++ (".mp4"))) then
    Except.ok (pathJoin outputDir (jobId ++ (".mp4")))
  else
    Except.error (404, ("Video not found or still processing"))

/-! ## Theorems -/

theorem getD_nonneg (l : List ℚ) (i : ℕ) (h : ∀ d ∈ l, 0 ≤ d) : 0 ≤ l.getD i 0 := by
  induction l generalizing i with
  | nil => simp
  | cons d t ih =>
    cases i with
    | zero => simpa using h d (List.mem_cons_self d t)
    | succ n =>
      simpa using ih n (fun x hx => h x (List.mem_cons_of_mem d hx))

theorem trimLoop_fst_zero (ds : List ℚ) (r : ℚ) (p : ℚ × ℚ) (hp : p ∈ trimLoop ds r) :
    p.1 = 0 := by
  induction ds generalizing r with
  | nil => simp [trimLoop] at hp
  | cons d t ih =>
    by_cases hr : r ≤ 0
    · simp [trimLoop, hr] at hp
    · simp only [trimLoop, hr, if_false, List.mem_cons] at hp
      rcases hp with hp | hp
      · simp [hp]
      · exact ih _ hp

theorem trimLoop_length_le (ds : List ℚ) (r : ℚ) :
    (trimLoop ds r).length ≤ ds.length := by
  induction ds generalizing r with
  | nil => simp [trimLoop]
  | cons d t ih =>
    by_cases hr : r ≤ 0
    · simp [trimLoop, hr]
    · simp only [trimLoop, hr, if_false, List.length_cons]
      exact Nat.succ_le_succ (ih _)

theorem trimLoop_sum_le (ds : List ℚ) (r : ℚ) (hd : ∀ d ∈ ds, 0 ≤ d) (hr : 0 ≤ r) :
    ((trimLoop ds r).map keptLen).sum ≤ r := by
  induction ds generalizing r with
  | nil => simpa [trimLoop] using hr
  | cons d t ih =>
    by_cases h0 : r ≤ 0
    · simpa [trimLoop, h0] using hr
    · have hmin : min d r ≤ r := min_le_right d r
      have hrec := ih (fun x hx => hd x (List.mem_cons_of_mem d hx)) (r := r - min d r)
        (by linarith)
      simp only [trimLoop, h0, if_false, List.map_cons, List.sum_cons, keptLen]
      have : (min d r - 0) = min d r := by ring
      rw [this]
      linarith

theorem trimLoop_exhaust (ds : List ℚ) (r : ℚ)
    (h : (trimLoop ds r).length < ds.length) :
    r ≤ ((trimLoop ds r).map keptLen).sum := by
  induction ds generalizing r with
  | nil => simp [trimLoop] at h
  | cons d t ih =>
    by_cases h0 : r ≤ 0
    · simpa [trimLoop, h0] using h0
    · simp only [trimLoop, h0, if_false, List.length_cons, List.map_cons,
        List.sum_cons, keptLen] at h ⊢
      have hlen : (trimLoop t (r - min d r)).length < t.length := by omega
      have := ih (r := r - min d r) hlen
      linarith

theorem trimLoop_getD_fst (ds : List ℚ) (r : ℚ) (i : ℕ) :
    ((trimLoop ds r).getD i (0, 0)).1 = 0 := by
  by_cases h : i < (trimLoop ds r).length
  · exact trimLoop_fst_zero ds r _ (by
      rw [List.getD_eq_get _ _ h]
      exact List.get_mem _ _ h)
  · rw [List.getD_eq_default _ _ (le_of_not_lt h)]

theorem trimLoop_getD_le (ds : List ℚ) (r : ℚ) (i : ℕ) (hd : ∀ d ∈ ds, 0 ≤ d) :
    ((trimLoop ds r).getD i (0, 0)).2 ≤ ds.getD i 0 := by
  induction ds generalizing r i with
  | nil => simp [trimLoop]
  | cons d t ih =>
    by_cases h0 : r ≤ 0
    · simp only [trimLoop, h0, if_true]
      calc ((([] : List (ℚ × ℚ))).getD i (0, 0)).2 = 0 := by simp
        _ ≤ (d :: t).getD i 0 := getD_nonneg _ _ hd
    · cases i with
      | zero => simpa [trimLoop, h0] using min_le_left d r
      | succ n =>
        simp only [trimLoop, h0, if_false, List.getD_cons_succ]
        exact ih _ n (fun x hx => hd x (List.mem_cons_of_mem d hx))

theorem trimLoop_getD_eq_min (ds : List ℚ) (r : ℚ) (i : ℕ)
    (h : i < (trimLoop ds r).length) :
    ((trimLoop ds r).getD i (0, 0)).2
      = min (ds.getD i 0) (r - (((trimLoop ds r).take i).map keptLen).sum) := by
  induction ds generalizing r i with
  | nil => simp [trimLoop] at h
  | cons d t ih =>
    by_cases h0 : r ≤ 0
    · simp [trimLoop, h0] at h
    · cases i with
      | zero => simp [trimLoop, h0]
      | succ n =>
        have hn : n < (trimLoop t (r - min d r)).length := by
          simpa [trimLoop, h0] using h
        have hrec := ih (r := r - min d r) n hn
        simp only [trimLoop, h0, if_false, List.getD_cons_succ, List.take_succ_cons,
          List.map_cons, List.sum_cons, keptLen]
        rw [hrec]
        congr 1
        ring

theorem mapPair_getD (l : List ℚ) (i : ℕ) :
    ((l.map fun d => ((0 : ℚ), d)).getD i (0, 0)) = (0, l.getD i 0) := by
  induction l generalizing i with
  | nil => simp
  | cons d t ih =>
    cases i with
    | zero => simp
    | succ n => simpa using ih n

theorem mapPair_map_keptLen (l : List ℚ) :
    ((l.map fun d => ((0 : ℚ), d)).map keptLen) = l := by
  induction l with
  | nil => rfl
  | cons a t ih => simp [keptLen, ih]

/-- Claim C1: for every sequence of non-negative clip durations and every
(non-negative) budget B, the trimming step of process_videos keeps clips
with: total kept duration at most B; at most as many segments as clips;
every segment taken from its clip's start; each kept duration at most the
original duration; clips are only dropped once the budget is exhausted
(the kept total already reaches B); when the total original duration fits
the budget every clip is kept in full unchanged; and the allocation is
strict greedy left-to-right (each kept duration is the minimum of the
clip's duration and the budget remaining after the earlier clips). -/
theorem c1_duration_budgeter (cs : List ℚ) (B : ℚ)
    (hcs : ∀ d ∈ cs, 0 ≤ d) (hB : 0 ≤ B) :
    ((trimClips cs B).map keptLen).sum ≤ B
    ∧ (trimClips cs B).length ≤ cs.length
    ∧ (∀ p ∈ trimClips cs B, p.1 = 0)
    ∧ (∀ i : ℕ, keptLen ((trimClips cs B).getD i (0, 0)) ≤ cs.getD i 0)
    ∧ ((trimClips cs B).length < cs.length → B ≤ ((trimClips cs B).map keptLen).sum)
    ∧ (cs.sum ≤ B → trimClips cs B = cs.map (fun d => ((0 : ℚ), d)))
    ∧ (∀ i : ℕ, i < (trimClips cs B).length →
        ((trimClips cs B).getD i (0, 0)).2
          = min (cs.getD i 0) (B - (((trimClips cs B).take i).map keptLen).sum)) := by
  by_cases hbr : B < cs.sum
  · have htc : trimClips cs B = trimLoop cs B := by simp [trimClips, hbr]
    rw [htc]
    refine ⟨trimLoop_sum_le cs B hcs hB, trimLoop_length_le cs B,
      trimLoop_fst_zero cs B, ?_, trimLoop_exhaust cs B, ?_, trimLoop_getD_eq_min cs B⟩
    · intro i
      have h1 := trimLoop_getD_fst cs B i
      have h2 := trimLoop_getD_le cs B i hcs
      simp only [keptLen]
      rw [h1, sub_zero]
      exact h2
    · intro hsum
      exact absurd hbr (not_lt.mpr hsum)
  · have hsum : cs.sum ≤ B := not_lt.mp hbr
    have htc : trimClips cs B = cs.map (fun d => ((0 : ℚ), d)) := by
      simp [trimClips, hbr]
    rw [htc]
    have hkl : ((cs.map fun d => ((0 : ℚ), d)).map keptLen) = cs :=
      mapPair_map_keptLen cs
    refine ⟨?_, ?_, ?_, ?_, ?_, ?_, ?_⟩
    · rw [hkl]; exact hsum
    · simp
    · intro p hp
      rcases List.mem_map.mp hp with ⟨d, _, rfl⟩
      rfl
    · intro i
      rw [mapPair_getD]
      simp [keptLen]
    · intro h
      simp at h
    · intro _
      rfl
    · intro i h
      have hl : i < cs.length := by simpa using h
      have e1 : (cs.take (i + 1)).sum = (cs.take i).sum + cs.getD i 0 := by
        rw [List.getD_eq_getElem _ _ hl]
        exact List.sum_take_succ cs i hl
      have e2 : (cs.take (i + 1)).sum ≤ cs.sum := by
        have e3 := List.sum_take_add_sum_drop cs (i + 1)
        have e4 : 0 ≤ (cs.drop (i + 1)).sum :=
          List.sum_nonneg (fun x hx => hcs x (List.drop_subset _ _ hx))
        linarith
      have hkt : (((cs.map fun d => ((0 : ℚ), d)).take i).map keptLen).sum
          = (cs.take i).sum := by
        rw [← List.map_take, mapPair_map_keptLen]
      have hle : cs.getD i 0 ≤ B - (cs.take i).sum := by linarith
      rw [mapPair_getD, hkt]
      exact (min_eq_left hle).symm

/-- Witness for C1 at the spec's own example: clip durations [5, 5, 5]
with budget 7 produce the plan [(0, 5), (0, 2)] and its kept total is
within the budget. -/
theorem c1_duration_budgeter_witness :
    trimClips [5, 5, 5] 7 = [(0, 5), (0, 2)]
    ∧ ((trimClips [5, 5, 5] 7).map keptLen).sum ≤ 7 :=
  ⟨by norm_num [trimClips, trimLoop],
    (c1_duration_budgeter [5, 5, 5] 7 (by norm_num) (by norm_num)).1⟩

/-- Claim C2 (code defect): with only a background source, the trim branch
(source at least as long as the video) does produce exactly the video's
duration from the source's start, but the loop branch (source shorter than
the video, e.g. 3s source for a 10s video) never loops: the expression
`background_audio.fx.audio_loop(duration=...)` looks up an attribute on
the bound method `Clip.fx` and raises AttributeError, so the job fails. -/
theorem c2_background_audio_bug :
    makeBackgroundAudio 3 10 = Except.error ("AttributeError")
    ∧ makeBackgroundAudio 20 10 = Except.ok ⟨20, 0, 10, 1⟩
    ∧ AClip.duration ⟨20, 0, 10, 1⟩ = 10 := by
  refine ⟨?_, ?_, ?_⟩ <;>
    norm_num [makeBackgroundAudio, AudioFileClip, AClip.duration, AClip.subclip]

/-- Claim C3 (code defect): with both sources present, the spec's own
example (background 4s, narration 6s, target 6s) hits the broken loop
branch and raises AttributeError instead of mixing.  When the background
is long enough to avoid looping, the claimed behaviour does hold: the
background is trimmed to the target and attenuated to 3/10 amplitude, the
narration is trimmed only when longer than the target, never looped, and
stays at full volume in the composite [background, narration]. -/
theorem c3_mixed_audio_bug :
    makeFinalAudio 4 (some 6) 6 = Except.error ("AttributeError")
    ∧ makeFinalAudio 8 (some 10) 6 = Except.ok [⟨8, 0, 6, 3 / 10⟩, ⟨10, 0, 6, 1⟩]
    ∧ makeFinalAudio 8 (some 4) 6 = Except.ok [⟨8, 0, 6, 3 / 10⟩, ⟨4, 0, 4, 1⟩] := by
  refine ⟨?_, ?_, ?_⟩ <;>
    norm_num [makeFinalAudio, makeBackgroundAudio, AudioFileClip, AClip.duration,
      AClip.subclip, AClip.volumex]

/-- Claim C4: on every exit path of process_videos (success, assembly
failure, or fetch failure) the finally block removes the scratch directory
and every file fetched into it, provided the rmtree call itself succeeds;
and a failure of the cleanup operations never changes the result of the
run (it is logged only, never masking the original outcome). -/
theorem c4_workspace_cleanup (env : PipelineEnv) (f : String → Bool) (b : Bool)
    (h : env.rmtreeFails = false) :
    (processVideosScratch env).2 = ⟨false, []⟩
    ∧ (processVideosScratch { env with removeFileFails := f, rmtreeFails := b }).1
        = (processVideosScratch env).1 := by
  constructor
  · simp [processVideosScratch, h]
  · rfl

/-- Witness for C4: a run with one successful download and a successful
assembly, whose cleanup leaves no directory and no files. -/
theorem c4_workspace_cleanup_witness :
    (processVideosScratch ⟨[FetchRes.success ("a.mp4")], true, fun _ => false, false⟩).2
      = ⟨false, []⟩ :=
  (c4_workspace_cleanup ⟨[FetchRes.success ("a.mp4")], true, fun _ => false, false⟩
    (fun _ => true) true rfl).1

/-- Counterexample to C5: in detached mode a job whose assembly fails
after a partial output file was written terminates with an error, yet the
output file still exists afterwards — no handler removes it. -/
theorem c5_detached_leaves_partial_output :
    (combineVideosAsyncRun ⟨[("http://h/v.mp4")], ("http://h/a.mp3"), 600⟩
        ⟨true, true, false, true, false⟩).pipelineResult
      = some (Except.error (500, ("Error processing videos")))
    ∧ (combineVideosAsyncRun ⟨[("http://h/v.mp4")], ("http://h/a.mp3"), 600⟩
        ⟨true, true, false, true, false⟩).outputExistsAfter = true :=
  ⟨rfl, rfl⟩

/-- Claim C5 as amended: in the synchronous and narration-upload modes the
output file never survives a failure (when the removal call itself
succeeds, the file exists afterwards exactly when the response is a
success); detached mode has no such cleanup. -/
theorem c5_sync_and_narration_remove_output (req : VReq) (links : List String)
    (narrSaveOk : Bool) (e : RunEnv) (h : e.outputRemoveFails = false) :
    (combineVideosRun req e).outputExistsAfter
        = exceptOk (combineVideosRun req e).response
    ∧ (combineWithNarrationRun links narrSaveOk e).outputExistsAfter
        = exceptOk (combineWithNarrationRun links narrSaveOk e).response := by
  constructor
  · cases ha : e.audioFetchOk with
    | false => simp [combineVideosRun, ha, exceptOk]
    | true =>
      cases hp : processVideosRes e with
      | ok v => simp [combineVideosRun, ha, hp, exceptOk]
      | error err => simp [combineVideosRun, ha, hp, exceptOk, h]
  · cases hl : links.isEmpty with
    | true => simp [combineWithNarrationRun, hl, exceptOk]
    | false =>
      cases ha : e.audioFetchOk with
      | false => simp [combineWithNarrationRun, hl, ha, exceptOk]
      | true =>
        cases hn : narrSaveOk with
        | false => simp [combineWithNarrationRun, hl, ha, hn, exceptOk]
        | true =>
          cases hp : processVideosRes e with
          | ok v => simp [combineWithNarrationRun, hl, ha, hn, hp, exceptOk]
          | error err => simp [combineWithNarrationRun, hl, ha, hn, hp, exceptOk, h]

/-- Witness for the amended C5 at a failing synchronous run. -/
theorem c5_sync_and_narration_remove_output_witness :
    (combineVideosRun ⟨[], ("a"), 600⟩
        ⟨true, true, false, true, false⟩).outputExistsAfter
      = exceptOk (combineVideosRun ⟨[], ("a"), 600⟩
        ⟨true, true, false, true, false⟩).response :=
  (c5_sync_and_narration_remove_output ⟨[], ("a"), 600⟩ [] false
    ⟨true, true, false, true, false⟩ rfl).1

/-- Counterexample to C6: a video download failure is an asset-retrieval
failure, yet `download_file` raises HTTPException 500 and the synchronous
endpoint surfaces it as 500 — not a 400-class error. -/
theorem c6_video_fetch_reports_500 :
    downloadFileRes false = Except.error (500, ("Error downloading file"))
    ∧ (combineVideosRun ⟨[("v")], ("a"), 600⟩
        ⟨true, false, true, false, false⟩).response
      = Except.error (500, ("Error processing videos"))
    ∧ (500 : ℕ) / 100 ≠ 4 :=
  ⟨rfl, rfl, by decide⟩

/-- Claim C6 as amended: background-audio download failures at the
synchronous and narration endpoints are reported as 400, while video
download failures inside process_videos raise 500 in download_file and
surface to the caller as 500. -/
theorem c6_fetch_error_statuses (req : VReq) (links : List String) (narrSaveOk : Bool)
    (e : RunEnv) :
    (e.audioFetchOk = false →
      (combineVideosRun req e).response
        = Except.error (400, ("Failed to download audio")))
    ∧ (links.isEmpty = false → e.audioFetchOk = false →
      (combineWithNarrationRun links narrSaveOk e).response
        = Except.error (400, ("Failed to download background audio")))
    ∧ (e.audioFetchOk = true → e.videoFetchesOk = false →
      (combineVideosRun req e).response
        = Except.error (500, ("Error processing videos")))
    ∧ downloadFileRes false = Except.error (500, ("Error downloading file")) := by
  refine ⟨?_, ?_, ?_, rfl⟩
  · intro ha
    simp [combineVideosRun, ha]
  · intro hl ha
    simp [combineWithNarrationRun, hl, ha]
  · intro ha hv
    simp [combineVideosRun, ha, processVideosRes, downloadFileRes, hv]

/-- Witness for the amended C6 at a failing audio download. -/
theorem c6_fetch_error_statuses_witness :
    (combineVideosRun ⟨[], ("a"), 600⟩ ⟨false, true, true, false, false⟩).response
      = Except.error (400, ("Failed to download audio")) :=
  (c6_fetch_error_statuses ⟨[], ("a"), 600⟩ [] false
    ⟨false, true, true, false, false⟩).1 rfl

/-- Counterexample to C7: a request with zero video links and a valid
audio link passes pydantic validation on the JSON endpoint, the background
audio is downloaded, and the pipeline runs — it is not rejected before
fetch/assembly work begins. -/
theorem c7_empty_videos_not_rejected :
    (combineVideosEndpoint ⟨some [], some ("http://h/a.mp3"), none⟩
        ⟨true, true, true, false, false⟩).audioFetchTried = true
    ∧ (combineVideosEndpoint ⟨some [], some ("http://h/a.mp3"), none⟩
        ⟨true, true, true, false, false⟩).pipelineRan = true :=
  ⟨rfl, rfl⟩

/-- Claim C7 as amended: a request lacking the audio link is rejected by
request validation (client error 422) on both JSON endpoints before any
fetch or pipeline work, and the narration endpoint rejects an empty video
list with 400 before any fetch; but zero video links are accepted by the
JSON endpoints. -/
theorem c7_validation_and_early_rejection (r : RawRequest) (e : RunEnv)
    (narrSaveOk : Bool) :
    (r.audioLink = none →
      (combineVideosEndpoint r e).response = Except.error (422, ("validation error"))
      ∧ (combineVideosEndpoint r e).audioFetchTried = false
      ∧ (combineVideosEndpoint r e).pipelineRan = false
      ∧ (combineVideosAsyncEndpoint r e).response
          = Except.error (422, ("validation error"))
      ∧ (combineVideosAsyncEndpoint r e).audioFetchTried = false
      ∧ (combineVideosAsyncEndpoint r e).pipelineRan = false)
    ∧ ((combineWithNarrationRun [] narrSaveOk e).response
          = Except.error (400, ("No video links provided"))
        ∧ (combineWithNarrationRun [] narrSaveOk e).audioFetchTried = false
        ∧ (combineWithNarrationRun [] narrSaveOk e).pipelineRan = false) := by
  constructor
  · intro h
    obtain ⟨vl, al, md⟩ := r
    cases al with
    | some a => simp at h
    | none =>
      cases vl <;>
        simp [combineVideosEndpoint, combineVideosAsyncEndpoint, validateVideoRequest]
  · exact ⟨rfl, rfl, rfl⟩

/-- Witness for the amended C7 at a request with a missing audio link. -/
theorem c7_validation_and_early_rejection_witness :
    (combineVideosEndpoint ⟨some [("v")], none, none⟩
        ⟨true, true, true, false, false⟩).response
      = Except.error (422, ("validation error")) :=
  ((c7_validation_and_early_rejection ⟨some [("v")], none, none⟩
      ⟨true, true, true, false, false⟩ false).1 rfl).1

/-- Claim C8: for every locator (every URL string contains a slash), the
filename written by download_file is the destination directory joined with
a fresh unique identifier as basename, whose extension is taken (via
os.path.splitext) from the last path segment of the locator when that
segment contains a dot, and is ".mp4" otherwise. -/
theorem c8_download_filename (dir uuid url : List Char)
    (hslash : url.contains ('/') = true) :
    ∃ ext : List Char,
      downloadFilename dir uuid url = dir ++ ('/') :: (uuid ++ ext)
      ∧ ((lastComponent url).contains ('.') = true →
          ext = splitextExt (lastComponent url))
      ∧ ((lastComponent url).contains ('.') = false → ext = (".mp4").data) := by
  cases hdot : (lastComponent url).contains ('.') with
  | true =>
    have hs : ('/') ∈ url := by simpa using hslash
    have hd : ('.') ∈ lastComponent url := by simpa using hdot
    refine ⟨splitextExt (lastComponent url), ?_, fun _ => rfl, fun hc => ?_⟩
    · simp [downloadFilename, hs, hd]
    · simp [hdot] at hc
  | false =>
    have hs : ('/') ∈ url := by simpa using hslash
    have hd : ('.') ∉ lastComponent url := by simpa using hdot
    refine ⟨(".mp4").data, ?_, fun hc => ?_, fun _ => rfl⟩
    · simp [downloadFilename, hs, hd]
    · simp [hdot] at hc

/-- Witness for C8 at a concrete locator with a dotted last segment. -/
theorem c8_download_filename_witness :
    ("http://example.com/media/clip.mp4").data.contains ('/') = true
    ∧ ∃ ext : List Char,
        downloadFilename ("videos").data ("uuid4").data
            ("http://example.com/media/clip.mp4").data
          = ("videos").data ++ ('/') :: (("uuid4").data ++ ext)
        ∧ ((lastComponent ("http://example.com/media/clip.mp4").data).contains ('.')
              = true →
            ext = splitextExt (lastComponent ("http://example.com/media/clip.mp4").data))
        ∧ ((lastComponent ("http://example.com/media/clip.mp4").data).contains ('.')
              = false →
            ext = (".mp4").data) :=
  ⟨by decide, c8_download_filename _ _ _ (by decide)⟩

/-- Claim C9: the detached endpoint passes the background-audio URL value
itself as the audio_path argument of process_videos — the audio is never
downloaded by the endpoint, so the audio-loading step receives a URL where
a local file path is expected. -/
theorem c9_async_passes_audio_url (req : VReq) (e : RunEnv) :
    (combineVideosAsyncRun req e).audioArgToPipeline
        = some (AudioArg.url req.audioLink)
    ∧ (combineVideosAsyncRun req e).audioFetchTried = false :=
  ⟨rfl, rfl⟩

/-- Claim C10: for every job id, the lookup endpoint serves the file at
the output directory joined with the job id plus ".mp4" (no sanitization
of the job id) exactly when that path exists, and fails with 404 "Video
not found or still processing" exactly when it does not. -/
theorem c10_download_video_lookup (fileExists : String → Bool)
    (outputDir jobId : String) :
    (fileExists (pathJoin outputDir (jobId ++ (".mp4"))) = true →
      downloadVideoRun fileExists outputDir jobId
        = Except.ok (pathJoin outputDir (jobId ++ (".mp4"))))
    ∧ (fileExists (pathJoin outputDir (jobId ++ (".mp4"))) = false →
      downloadVideoRun fileExists outputDir jobId
        = Except.error (404, ("Video not found or still processing"))) := by
  constructor <;> intro h <;> simp [downloadVideoRun, h]

/-- Witness for C10 at an absent file. -/
theorem c10_download_video_lookup_witness :
    downloadVideoRun (fun _ => false) ("output") ("someid")
      = Except.error (404, ("Video not found or still processing")) :=
  (c10_download_video_lookup (fun _ => false) ("output") ("someid")).2 rfl
